import Mathlib

/-!
# Verification of the rusql-alchemy query-building and value-binding engine

Shallow embedding of `src/lib.rs` (the `rusql_alchemy` crate): the `Arg` /
`Kwargs` / `Operator` argument model, the placeholder dialect, the value
binder (`to_value`, the `bind` loops) and the SQL builders behind
`Model::create`, `Model::set`, `Model::filter`, together with the
error-swallowing facade of `migrate` / `create` / `set` / `all` / `filter` /
`get` / `count` / bulk `delete`.

Pure string/JSON computations are translated directly; the single effectful
boundary (statement execution through sqlx) is modelled by passing the
backend outcome explicitly as an `Except` value, and the `.unwrap()` panics
of the binder are modelled by `Option` (with `none` for the panic).
-/

namespace RusqlAlchemy

/-! ## JSON values (the subset of `serde_json::Value` this engine produces)

The engine builds values with `to_value` (from booleans, integers and
strings) and serializes them with `Value::to_string()`.  Floating point
JSON numbers, arrays and objects are not modelled: no operation verified
here constructs them, and the binder only ever looks at the *serialized
string* (see `bindOne`), which we quantify over separately. -/

inductive Value where
  | null : Value
  | bool (b : Bool) : Value
  | num (n : Int) : Value
  | str (s : String) : Value
deriving DecidableEq, Repr

/-- `Value::is_boolean()`. -/
def Value.isBool : Value → Bool
  | .bool _ => true
  | _ => false

/-- `pub fn to_value(value) -> serde_json::Value` (lib.rs:35-42):
booleans are normalized to the JSON numbers `1` / `0`; every other value
passes through unchanged. -/
def to_value : Value → Value
  | .bool true => .num 1
  | .bool false => .num 0
  | v => v

/-- Hex digit used by serde_json for `\u00XX` control-character escapes
(lowercase, as in serde's `0123456789abcdef` table). -/
def hexDigit (n : Nat) : Char :=
  if n < 10 then Char.ofNat (48 + n) else Char.ofNat (97 + (n - 10))

/-- serde_json's escaping of one character inside a JSON string literal. -/
def jsonEscapeChar (c : Char) : String :=
  if c = '"' then "\\\""
  else if c = '\\' then "\\\\"
  else if c = '\x08' then "\\b"
  else if c = '\t' then "\\t"
  else if c = '\n' then "\\n"
  else if c = '\x0c' then "\\f"
  else if c = '\r' then "\\r"
  else if c.toNat < 32 then
    "\\u00" ++ String.mk [hexDigit (c.toNat / 16), hexDigit (c.toNat % 16)]
  else String.mk [c]

/-- `serde_json::Value::to_string()` on the modelled subset: `null`,
`true` / `false`, decimal integers, and strings quoted with escaping. -/
def jsonToString : Value → String
  | .null => "null"
  | .bool true => "true"
  | .bool false => "false"
  | .num n => toString n
  | .str s => "\"" ++ String.join (s.data.map jsonEscapeChar) ++ "\""

/-! ## The argument model (`db::models`) -/

/-- `pub struct Arg { key, value, r#type }` (lib.rs:115-120).  The `type`
field holds the Rust type name produced by `get_type_name` in the
`kwargs!` macro (e.g. `"i32"`, `"f64"`, `"&str"`, `"bool"`). -/
structure Arg where
  key : String
  value : Value
  type : String
deriving DecidableEq, Repr

/-- `pub enum Operator { Or, And }` (lib.rs:100-104). -/
inductive Operator where
  | Or : Operator
  | And : Operator
deriving DecidableEq, Repr

/-- `Operator::get` (lib.rs:106-113): the textual connector. -/
def Operator.get : Operator → String
  | .Or => " or "
  | .And => " and "

/-- `pub struct Kwargs { operator, args }` (lib.rs:122-126). -/
structure Kwargs where
  operator : Operator
  args : List Arg
deriving DecidableEq, Repr

/-- `Kwargs::or` (lib.rs:128-135). -/
def Kwargs.or (k : Kwargs) : Kwargs :=
  { operator := .Or, args := k.args }

/-- The `Arg` built by one `key = value` item of the `kwargs!` macro
(lib.rs:1-19): the value goes through `to_value`, the type tag is the Rust
type name of the original expression (`get_type_name`), passed in here. -/
def kwargOf (key : String) (v : Value) (typeName : String) : Arg :=
  { key := key, value := to_value v, type := typeName }

/-! ## Placeholder dialect -/

/-- The three backend families selected by cargo features
(`postgres` / `mysql` / `sqlite`, lib.rs:26-33). -/
inductive Dialect where
  | postgres : Dialect
  | mysql : Dialect
  | sqlite : Dialect
deriving DecidableEq, Repr

/-- `pub const PLACEHOLDER: &str` — `"$"` under the `postgres` feature,
`"?"` under `mysql` and `sqlite` (lib.rs:26-33). -/
def PLACEHOLDER : Dialect → String
  | .postgres => "$"
  | .mysql => "?"
  | .sqlite => "?"

/-- The marker text the builders emit for bound position `i`:
`format!("{PLACEHOLDER}{}", i)` — the constant followed by the decimal
index (lib.rs:169, 221, 280, 282). -/
def placeholderAt (d : Dialect) (i : Nat) : String :=
  PLACEHOLDER d ++ toString i

/-! ## The value binder

Each builder collects `values: Vec<(String, String)>` of
`(arg.r#type, arg.value.to_string())` pairs and then runs the same loop:
`"i32"` → `v.replace('"',"").parse::<i32>().unwrap()`, `"f64"` likewise as
float, anything else → bind `v.replace('"', "")` as text
(lib.rs:184-196, 231-243, 297-309).  The `.unwrap()` panic is modelled by
`Option.none`. -/

/-- `v.replace('"', "")`: every double-quote character removed. -/
def stripQuotes (s : String) : String :=
  (s.data.filter (fun c => c ≠ '"')).asString

/-- Decimal value of a digit list (significant only when `isDigits`). -/
def digitsVal (cs : List Char) : Nat :=
  cs.foldl (fun acc c => acc * 10 + (c.toNat - 48)) 0

/-- Nonempty and all ASCII digits. -/
def isDigits (cs : List Char) : Bool :=
  !cs.isEmpty && cs.all (fun c => c.isDigit)

/-- Sign-and-digits core of `i32::from_str`, with the i32 range check. -/
def parseI32core (cs : List Char) (neg : Bool) : Option Int :=
  if isDigits cs then
    let n : Int := if neg then -(digitsVal cs : Int) else (digitsVal cs : Int)
    if -2147483648 ≤ n ∧ n ≤ 2147483647 then some n else none
  else none

/-- Rust `str::parse::<i32>()`: optional sign, one or more digits, result
within the i32 range; `none` models the parse error. -/
def parseI32 (s : String) : Option Int :=
  match s.data with
  | '+' :: rest => parseI32core rest false
  | '-' :: rest => parseI32core rest true
  | cs => parseI32core cs false

/-- Split a character list at the first character satisfying `p`:
the part before, and (when found) the part after. -/
def spanAt (p : Char → Bool) : List Char → List Char × Option (List Char)
  | [] => ([], none)
  | c :: rest =>
    if p c then ([], some rest)
    else
      let (a, b) := spanAt p rest
      (c :: a, b)

/-- The exponent part of a float literal after `e`/`E`:
optional sign then one or more digits. -/
def expLit : List Char → Bool
  | '+' :: rest => isDigits rest
  | '-' :: rest => isDigits rest
  | cs => isDigits cs

/-- The mantissa of a float literal:
`Digit+ | Digit+ . Digit* | Digit* . Digit+` (Rust's `f64` grammar). -/
def mantissaLit (cs : List Char) : Bool :=
  match spanAt (fun c => c = '.') cs with
  | (a, none) => isDigits a
  | (a, some b) =>
    (isDigits a && b.all (fun c => c.isDigit)) ||
    (a.all (fun c => c.isDigit) && isDigits b)

/-- Rust `str::parse::<f64>()` success, per the documented grammar:
`Sign? ( inf | infinity | nan | Number )` case-insensitively, with
`Number ::= Mantissa Exp?`.  The parsed float's numeric value is never
needed by the claims, only whether parsing succeeds. -/
def f64Lit (s : String) : Bool :=
  let cs := match s.data with
    | '+' :: rest => rest
    | '-' :: rest => rest
    | cs => cs
  let low := cs.map Char.toLower
  (low == "inf".data || low == "infinity".data || low == "nan".data) ||
  (match spanAt (fun c => c = 'e' || c = 'E') cs with
   | (m, none) => mantissaLit m
   | (m, some e) => mantissaLit m && expLit e)

/-- A parameter as handed to sqlx's `bind`.  `float` keeps the parsed
literal text: the claims only concern which branch binds and the text
branch's payload, never float arithmetic. -/
inductive Bound where
  | int (n : Int) : Bound
  | float (s : String) : Bound
  | text (s : String) : Bound
deriving DecidableEq, Repr

/-- One iteration of the bind loop on a `(r#type, value.to_string())`
pair; `none` is the `.unwrap()` panic of the numeric branches. -/
def bindOne (t v : String) : Option Bound :=
  if t = "i32" then (parseI32 (stripQuotes v)).map Bound.int
  else if t = "f64" then
    if f64Lit (stripQuotes v) then some (Bound.float (stripQuotes v)) else none
  else some (Bound.text (stripQuotes v))

/-- The whole bind loop: panics as soon as one pair panics. -/
def bindAll : List (String × String) → Option (List Bound)
  | [] => some []
  | p :: rest =>
    match bindOne p.1 p.2, bindAll rest with
    | some b, some bs => some (b :: bs)
    | _, _ => none

/-- `values.push((arg.r#type.clone(), arg.value.to_string()))` over the
args, in order (lib.rs:170, 220, 272). -/
def kwValues (args : List Arg) : List (String × String) :=
  args.map fun a => (a.type, jsonToString a.value)

/-! ## SQL builders -/

/-- `Model::create`'s statement (lib.rs:210-229):
`insert into {name} ({fields}) values ({placeholder});` with the arg keys
as columns and one numbered placeholder per arg. -/
def createQuery (d : Dialect) (name : String) (kw : Kwargs) : String :=
  let fields := kw.args.map Arg.key
  let placeholder := kw.args.enum.map fun p => placeholderAt d (p.1 + 1)
  "insert into " ++ name ++ " (" ++ String.intercalate ", " fields ++
    ") values (" ++ String.intercalate ", " placeholder ++ ");"

/-- The values `create` hands to the bind loop. -/
def createValues (kw : Kwargs) : List (String × String) :=
  kwValues kw.args

/-- `create`'s bind loop outcome. -/
def createBinds (kw : Kwargs) : Option (List Bound) :=
  bindAll (createValues kw)

/-- `Model::set`'s statement (lib.rs:160-182):
`update {name} set {fields} where {id}={PLACEHOLDER}{j};` with one
`key=placeholder` clause per arg and `j = fields.len() + 1`. -/
def setQuery (d : Dialect) (name pk : String) (kw : Kwargs) : String :=
  let fields := kw.args.enum.map fun p => p.2.key ++ "=" ++ placeholderAt d (p.1 + 1)
  let j := fields.length + 1
  "update " ++ name ++ " set " ++ String.intercalate ", " fields ++
    " where " ++ pk ++ "=" ++ placeholderAt d j ++ ";"

/-- The values `set` binds: the arg pairs in order, then the primary-key
pair `(get_type_name(id_value), id_value.to_string())` last
(lib.rs:168-175).  The id is serialized with `ToString`, not JSON, so its
pair is passed in as plain strings. -/
def setValues (idType idVal : String) (kw : Kwargs) : List (String × String) :=
  kwValues kw.args ++ [(idType, idVal)]

/-- `set`'s bind loop outcome. -/
def setBinds (idType idVal : String) (kw : Kwargs) : Option (List Bound) :=
  bindAll (setValues idType idVal kw)

/-- Rust `key.split("__")` on the character list: split at each
non-overlapping, leftmost occurrence of the two-character separator. -/
def splitKey : List Char → List (List Char)
  | [] => [[]]
  | '_' :: '_' :: rest => [] :: splitKey rest
  | c :: rest =>
    match splitKey rest with
    | [] => [[c]]
    | s :: ss => (c :: s) :: ss

/-- `let parts: Vec<&str> = arg.key.split("__").collect()` (lib.rs:271). -/
def keyParts (s : String) : List String :=
  (splitKey s.data).map List.asString

/-- The `[field_a, table, field_b] if parts.len() == 3` pattern of
`filter`'s match (lib.rs:273-283): `some` exactly when the key splits
into three parts. -/
def classify (a : Arg) : Option (String × String × String) :=
  match keyParts a.key with
  | [fieldA, table, fieldB] => some (fieldA, table, fieldB)
  | _ => none

/-- Whether an arg's key is a join key (splits into exactly three parts). -/
def isJoinKey (a : Arg) : Bool :=
  (classify a).isSome

/-- One iteration of `filter`'s loop (lib.rs:270-284) on the state
`(fields, join_query)` and the enumerated arg `(i, arg)`: a join key
pushes the joined predicate and *overwrites* `join_query`; any other key
pushes the plain predicate and leaves `join_query` alone. -/
def filterStep (d : Dialect) (name pk : String)
    (st : List String × Option String) (p : Nat × Arg) :
    List String × Option String :=
  match classify p.2 with
  | some (fieldA, table, fieldB) =>
    (st.1 ++ [table ++ "." ++ fieldB ++ "=" ++ placeholderAt d (p.1 + 1)],
     some ("INNER JOIN " ++ table ++ " ON " ++ name ++ "." ++ pk ++ " = " ++
       table ++ "." ++ fieldA))
  | none =>
    (st.1 ++ [p.2.key ++ "=" ++ placeholderAt d (p.1 + 1)], st.2)

/-- `filter`'s whole loop: the accumulated `fields` and the final
`join_query` (initially `None`). -/
def filterLoop (d : Dialect) (name pk : String) (args : List Arg) :
    List String × Option String :=
  (args.enum).foldl (filterStep d name pk) ([], none)

/-- `let fields = fields.join(kw.operator.get())` (lib.rs:285). -/
def filterClause (d : Dialect) (name pk : String) (kw : Kwargs) : String :=
  String.intercalate kw.operator.get (filterLoop d name pk kw.args).1

/-- `Model::filter`'s statement (lib.rs:286-293): the joined form when a
join clause was recorded, the plain form otherwise. -/
def filterQuery (d : Dialect) (name pk : String) (kw : Kwargs) : String :=
  match (filterLoop d name pk kw.args).2 with
  | some join =>
    "SELECT " ++ name ++ ".* FROM " ++ name ++ " " ++ join ++ " WHERE " ++
      filterClause d name pk kw ++ ";"
  | none =>
    "SELECT * FROM " ++ name ++ " WHERE " ++ filterClause d name pk kw ++ ";"

/-- The values `filter` binds (pushed for every arg, lib.rs:272). -/
def filterValues (kw : Kwargs) : List (String × String) :=
  kwValues kw.args

/-- `filter`'s bind loop outcome. -/
def filterBinds (kw : Kwargs) : Option (List Bound) :=
  bindAll (filterValues kw)

/-! Closed forms of `filter`'s loop, proved equal to it below. -/

/-- The predicate `filter` pushes for the arg at (0-based) index `i`. -/
def predOf (d : Dialect) (i : Nat) (a : Arg) : String :=
  match classify a with
  | some (_, table, fieldB) =>
    table ++ "." ++ fieldB ++ "=" ++ placeholderAt d (i + 1)
  | none => a.key ++ "=" ++ placeholderAt d (i + 1)

/-- The join clause an arg would record. -/
def joinOf (name pk : String) (a : Arg) : String :=
  match classify a with
  | some (fieldA, table, _) =>
    "INNER JOIN " ++ table ++ " ON " ++ name ++ "." ++ pk ++ " = " ++
      table ++ "." ++ fieldA
  | none => ""

/-- The last arg of the list whose key is a join key, if any — the one
whose join clause survives the overwriting. -/
def lastJoinArg : List Arg → Option Arg
  | [] => none
  | a :: rest =>
    match lastJoinArg rest with
    | some b => some b
    | none => if isJoinKey a then some a else none

/-! ## Execution facade (error swallowing)

Statement execution through sqlx is the one effectful boundary; its
outcome is passed in explicitly as an `Except`. -/

/-- `migrate` (lib.rs:143-154): `Ok(_) => true`, `Err(_) => false`
(after logging). -/
def migrateResult (r : Except String Unit) : Bool :=
  match r with
  | .ok _ => true
  | .error _ => false

/-- `create`'s tail `stream.execute(conn).await.is_ok()` (lib.rs:244). -/
def createResult (r : Except String Unit) : Bool :=
  match r with
  | .ok _ => true
  | .error _ => false

/-- `set`'s tail `if let Err(err) = ... { false } else { true }`
(lib.rs:198-203). -/
def setResult (r : Except String Unit) : Bool :=
  match r with
  | .ok _ => true
  | .error _ => false

/-- Bulk `delete` on a fetched collection: `execute(conn).await.is_ok()`
(lib.rs:359-362). -/
def deleteResult (r : Except String Unit) : Bool :=
  match r with
  | .ok _ => true
  | .error _ => false

/-- `all` (lib.rs:247-259): the rows on success, `Vec::new()` on error. -/
def allResult {ρ : Type} (r : Except String (List ρ)) : List ρ :=
  match r with
  | .ok rows => rows
  | .error _ => []

/-- `filter`'s tail (lib.rs:310-314): same empty-on-failure policy. -/
def filterResult {ρ : Type} (r : Except String (List ρ)) : List ρ :=
  match r with
  | .ok rows => rows
  | .error _ => []

/-- `get` (lib.rs:317-326): `filter` then first row. -/
def getResult {ρ : Type} (r : Except String (List ρ)) : Option ρ :=
  (filterResult r).head?

/-- The `as usize` two's-complement cast of the fetched i64. -/
def usizeOfI64 (n : Int) : Nat :=
  (n % (2 ^ 64)).toNat

/-- `count` (lib.rs:332-341):
`.map_or(0, |r| r.get::<i64, _>(0) as usize)`. -/
def countResult (r : Except String Int) : Nat :=
  match r with
  | .ok n => usizeOfI64 n
  | .error _ => 0

/-! ## Substring occurrence (for the counterexamples) -/

/-- `needle` occurs contiguously in `hay`. -/
def infixOf (needle : List Char) : List Char → Bool
  | [] => needle.isEmpty
  | c :: rest => needle.isPrefixOf (c :: rest) || infixOf needle rest

/-- Substring test on strings. -/
def strContains (hay needle : String) : Bool :=
  infixOf needle.data hay.data

/-! ## Predicates on bind pairs (for the panic analysis) -/

/-- A `(r#type, value-text)` pair the bind loop handles without panicking:
if it is tagged `"i32"` or `"f64"`, the quote-stripped text parses. -/
def goodPair (p : String × String) : Prop :=
  (p.1 = "i32" → (parseI32 (stripQuotes p.2)).isSome = true) ∧
  (p.1 = "f64" → f64Lit (stripQuotes p.2) = true)

/-- A pair on which the bind loop's `.unwrap()` panics: tagged numeric but
the quote-stripped text does not parse. -/
def badPair (p : String × String) : Prop :=
  (p.1 = "i32" ∧ parseI32 (stripQuotes p.2) = none) ∨
  (p.1 = "f64" ∧ f64Lit (stripQuotes p.2) = false)

instance decGoodPair (p : String × String) : Decidable (goodPair p) := by
  unfold goodPair; exact inferInstance

instance decBadPair (p : String × String) : Decidable (badPair p) := by
  unfold badPair; exact inferInstance

/-! ## Concrete inputs used by counterexamples and witnesses -/

/-- Two distinct join-key args. -/
def kwJoinTwo : Kwargs :=
  ⟨.And, [⟨"a__b__c", .num 1, "i32"⟩, ⟨"d__e__f", .num 2, "i32"⟩]⟩

/-- One plain string arg. -/
def kwNameOnly : Kwargs := ⟨.And, [⟨"name", .str "joe", "&str"⟩]⟩

/-- Two plain args combined with `And`. -/
def kwAndTwo : Kwargs :=
  ⟨.And, [⟨"name", .str "joe", "&str"⟩, ⟨"email", .str "joe@x.io", "&str"⟩]⟩

/-- The spec's insert scenario: `kwargs!(name = "joe", email = "joe@x.io")`. -/
def kwInsertJoe : Kwargs :=
  ⟨.And, [⟨"name", .str "joe", "&str"⟩, ⟨"email", .str "joe@x.io", "&str"⟩]⟩

/-- An i32-tagged arg whose value does not parse as i32. -/
def kwBadBind : Kwargs := ⟨.And, [⟨"age", .str "abc", "i32"⟩]⟩

/-- Numeric- and text-tagged args that all bind successfully. -/
def kwGoodBind : Kwargs :=
  ⟨.And, [⟨"age", .num 42, "i32"⟩, ⟨"price", .num 3, "f64"⟩,
    ⟨"name", .str "joe", "&str"⟩]⟩

/-! ## Helper lemmas -/

lemma bindOne_none_of_bad (p : String × String) (h : badPair p) :
    bindOne p.1 p.2 = none := by
  rcases h with ⟨h1, h2⟩ | ⟨h1, h2⟩
  · simp [bindOne, h1, h2]
  · simp [bindOne, h1, h2]

lemma bindOne_isSome_of_good (p : String × String) (h : goodPair p) :
    (bindOne p.1 p.2).isSome = true := by
  by_cases h1 : p.1 = "i32"
  · obtain ⟨n, hn⟩ := Option.isSome_iff_exists.mp (h.1 h1)
    simp [bindOne, h1, hn]
  · by_cases h2 : p.1 = "f64"
    · have h3 := h.2 h2
      simp [bindOne, h1, h2, h3]
    · simp [bindOne, h1, h2]

lemma bindAll_none_of (vs : List (String × String)) (h : ∃ p ∈ vs, badPair p) :
    bindAll vs = none := by
  induction vs with
  | nil => simp at h
  | cons q rest ih =>
    rcases h with ⟨p, hp, hb⟩
    rcases List.mem_cons.mp hp with rfl | hmem
    · simp only [bindAll, bindOne_none_of_bad p hb]
    · simp only [bindAll, ih ⟨p, hmem, hb⟩]
      cases bindOne q.1 q.2 <;> rfl

lemma bindAll_isSome_of (vs : List (String × String))
    (h : ∀ p ∈ vs, goodPair p) : (bindAll vs).isSome = true := by
  induction vs with
  | nil => simp [bindAll]
  | cons q rest ih =>
    obtain ⟨b, hb⟩ := Option.isSome_iff_exists.mp
      (bindOne_isSome_of_good q (h q (List.mem_cons_self q rest)))
    obtain ⟨bs, hbs⟩ := Option.isSome_iff_exists.mp
      (ih (fun p hp => h p (List.mem_cons_of_mem q hp)))
    simp [bindAll, hb, hbs]

lemma filterLoop_go (d : Dialect) (name pk : String) (args : List Arg) :
    ∀ (k : Nat) (f0 : List String) (j0 : Option String),
    (List.enumFrom k args).foldl (filterStep d name pk) (f0, j0) =
      (f0 ++ (List.enumFrom k args).map (fun p => predOf d p.1 p.2),
        match lastJoinArg args with
        | some a => some (joinOf name pk a)
        | none => j0) := by
  induction args with
  | nil =>
    intro k f0 j0
    simp [List.enumFrom, lastJoinArg]
  | cons a rest ih =>
    intro k f0 j0
    have henum : List.enumFrom k (a :: rest) =
        (k, a) :: List.enumFrom (k + 1) rest := rfl
    rw [henum, List.foldl_cons, List.map_cons]
    cases hc : classify a with
    | some tri =>
      obtain ⟨x, y, z⟩ := tri
      have hstep : filterStep d name pk (f0, j0) (k, a) =
          (f0 ++ [y ++ "." ++ z ++ "=" ++ placeholderAt d (k + 1)],
            some ("INNER JOIN " ++ y ++ " ON " ++ name ++ "." ++ pk ++ " = " ++
              y ++ "." ++ x)) := by
        simp [filterStep, hc]
      have hpred : predOf d k a = y ++ "." ++ z ++ "=" ++ placeholderAt d (k + 1) := by
        simp [predOf, hc]
      have hjk : isJoinKey a = true := by simp [isJoinKey, hc]
      rw [hstep, ih]
      cases hl : lastJoinArg rest with
      | none => simp [lastJoinArg, hl, hjk, hpred, joinOf, hc, List.append_assoc]
      | some b => simp [lastJoinArg, hl, hpred, List.append_assoc]
    | none =>
      have hstep : filterStep d name pk (f0, j0) (k, a) =
          (f0 ++ [a.key ++ "=" ++ placeholderAt d (k + 1)], j0) := by
        simp [filterStep, hc]
      have hpred : predOf d k a = a.key ++ "=" ++ placeholderAt d (k + 1) := by
        simp [predOf, hc]
      have hjk : isJoinKey a = false := by simp [isJoinKey, hc]
      rw [hstep, ih]
      cases hl : lastJoinArg rest with
      | none => simp [lastJoinArg, hl, hjk, hpred, List.append_assoc]
      | some b => simp [lastJoinArg, hl, hpred, List.append_assoc]

lemma filterLoop_eq (d : Dialect) (name pk : String) (args : List Arg) :
    filterLoop d name pk args =
      (args.enum.map fun p => predOf d p.1 p.2,
        (lastJoinArg args).map (joinOf name pk)) := by
  have h := filterLoop_go d name pk args 0 [] none
  unfold filterLoop
  rw [List.enum] at *
  rw [h]
  cases hl : lastJoinArg args <;> simp [hl]

lemma enum_placeholder (d : Dialect) (l : List Arg) :
    l.enum.map (fun p => placeholderAt d (p.1 + 1)) =
      (List.range l.length).map (fun i => placeholderAt d (i + 1)) := by
  rw [← List.enum_map_fst l, List.map_map]
  rfl

lemma createQuery_eq (d : Dialect) (name : String) (kw : Kwargs) :
    createQuery d name kw =
      "insert into " ++ name ++ " (" ++
        String.intercalate ", " (kw.args.map Arg.key) ++ ") values (" ++
        String.intercalate ", "
          ((List.range kw.args.length).map fun i => placeholderAt d (i + 1)) ++
        ");" := by
  unfold createQuery
  rw [enum_placeholder]

/-! ## Claim theorems -/

/-- C1 counterexample: `filter`'s `join_query` is a single `Option` that
each join-key arg overwrites (lib.rs:268, 275), so a `Kwargs` with the two
distinct join-key args `a__b__c` and `d__e__f` does NOT yield two join
clauses: the generated SELECT contains only the second arg's
`INNER JOIN e` clause, and no `INNER JOIN b` clause at all — refuting
"join clauses are emitted once per matching arg". -/
theorem c1_join_counterexample :
    filterQuery .postgres "user" "id" kwJoinTwo =
      "SELECT user.* FROM user INNER JOIN e ON user.id = e.d WHERE b.c=$1 and e.f=$2;" ∧
    strContains (filterQuery .postgres "user" "id" kwJoinTwo) "INNER JOIN b" = false ∧
    strContains (filterQuery .postgres "user" "id" kwJoinTwo) "INNER JOIN e" = true := by
  refine ⟨by decide, by decide, by decide⟩

/-- C1 (amended): every arg whose key splits into three parts
`a__b__c` gets the joined predicate `b.c=<placeholder>` in place of the
plain column predicate (`predOf`), but at most ONE
`INNER JOIN b ON <table>.<pk> = b.a` clause is recorded — that of the
LAST join-key arg (`lastJoinArg`) — because each matching arg overwrites
the single `join_query` slot. -/
theorem c1_join_amended (d : Dialect) (name pk : String) (args : List Arg) :
    filterLoop d name pk args =
      (args.enum.map fun p => predOf d p.1 p.2,
        (lastJoinArg args).map (joinOf name pk)) :=
  filterLoop_eq d name pk args

/-- C2 counterexample: under the mysql and sqlite features the emitted
marker is NOT the bare `?`: the builders always append the 1-based index
(`format!("{PLACEHOLDER}{}", i + 1)`), producing `?1`, `?2`, …, as the
generated insert statement shows. -/
theorem c2_placeholder_counterexample :
    placeholderAt .mysql 1 = "?1" ∧
    placeholderAt .sqlite 1 = "?1" ∧
    ("?1" : String) ≠ "?" ∧
    createQuery .mysql "user" kwNameOnly = "insert into user (name) values (?1);" := by
  refine ⟨by decide, by decide, by decide, by decide⟩

/-- C2 (amended): for every bound position `i` the emitted marker is the
dialect's constant followed by the decimal 1-based index: `$i` under
postgres and `?i` under mysql and sqlite (the index is appended for every
dialect); the insert builder emits exactly one such marker per arg, at
positions `1..N` in bind order. -/
theorem c2_placeholder_amended (d : Dialect) (i : Nat) (name : String) (kw : Kwargs) :
    placeholderAt d i = PLACEHOLDER d ++ toString i ∧
    placeholderAt .postgres i = "$" ++ toString i ∧
    placeholderAt .mysql i = "?" ++ toString i ∧
    placeholderAt .sqlite i = "?" ++ toString i ∧
    createQuery d name kw =
      "insert into " ++ name ++ " (" ++
        String.intercalate ", " (kw.args.map Arg.key) ++ ") values (" ++
        String.intercalate ", "
          ((List.range kw.args.length).map fun k => placeholderAt d (k + 1)) ++
        ");" :=
  ⟨rfl, rfl, rfl, rfl, createQuery_eq d name kw⟩

/-- C3: for a `Kwargs` with at least one arg, the WHERE clause built by
`filter` is exactly the per-arg predicates, one per arg in the original
order, joined by the operator's connector (`String.intercalate`, i.e.
N−1 separator occurrences between N predicates), with `And` joining by
`" and "` and `Or` by `" or "`. -/
theorem c3_where_clause (d : Dialect) (name pk : String) (kw : Kwargs)
    (hne : kw.args ≠ []) :
    filterClause d name pk kw =
      String.intercalate kw.operator.get
        (kw.args.enum.map fun p => predOf d p.1 p.2) ∧
    (kw.args.enum.map fun p => predOf d p.1 p.2).length = kw.args.length ∧
    Operator.And.get = " and " ∧ Operator.Or.get = " or " := by
  refine ⟨?_, ?_, rfl, rfl⟩
  · unfold filterClause
    rw [filterLoop_eq]
  · simp [List.enum_length]

/-- Witness for C3 at a concrete two-arg `And` kwargs. -/
theorem c3_where_clause_witness :
    kwAndTwo.args ≠ [] ∧
    filterClause .postgres "user" "id" kwAndTwo =
      String.intercalate kwAndTwo.operator.get
        (kwAndTwo.args.enum.map fun p => predOf .postgres p.1 p.2) ∧
    filterClause .postgres "user" "id" kwAndTwo = "name=$1 and email=$2" :=
  ⟨by decide,
   (c3_where_clause .postgres "user" "id" kwAndTwo (by decide)).1,
   by decide⟩

/-- C4: `set` builds `update <name> set <clauses> where <pk>=<ph(N+1)>;`
with one comma-joined `key=<placeholder i+1>` clause per arg in order, the
primary key bound at placeholder N+1; the `Kwargs` operator is ignored,
and the bind list is all arg values in original order with the
primary-key value last. -/
theorem c4_update_by_pk (d : Dialect) (name pk idT idV : String) (kw : Kwargs) :
    setQuery d name pk kw =
      "update " ++ name ++ " set " ++
        String.intercalate ", "
          (kw.args.enum.map fun p => p.2.key ++ "=" ++ placeholderAt d (p.1 + 1)) ++
        " where " ++ pk ++ "=" ++ placeholderAt d (kw.args.length + 1) ++ ";" ∧
    (∀ op : Operator, setQuery d name pk ⟨op, kw.args⟩ = setQuery d name pk kw) ∧
    setValues idT idV kw =
      (kw.args.map fun a => (a.type, jsonToString a.value)) ++ [(idT, idV)] := by
  refine ⟨?_, fun op => rfl, rfl⟩
  unfold setQuery
  simp [List.enum_length]

/-- C5 counterexample: on the spec's own scenario the statement `create`
generates is the lowercase `insert into user (name, email) values ($1, $2);`
(with a trailing semicolon), not the claimed uppercase
`INSERT INTO user (name, email) VALUES ($1, $2)`. -/
theorem c5_insert_counterexample :
    createQuery .postgres "user" kwInsertJoe =
      "insert into user (name, email) values ($1, $2);" ∧
    createQuery .postgres "user" kwInsertJoe ≠
      "INSERT INTO user (name, email) VALUES ($1, $2)" := by
  refine ⟨by decide, by decide⟩

/-- C5 (amended): `create` generates
`insert into <name> (<columns>) values (<placeholders>);` — lowercase
keywords and a trailing semicolon — with the columns exactly the arg keys
in Kwargs order, one dialect placeholder per arg at positions `1..N`, and
the values bound in column order; the spec's example yields
`insert into user (name, email) values ($1, $2);` binding
`["joe", "joe@x.io"]`. -/
theorem c5_insert_amended (d : Dialect) (name : String) (kw : Kwargs) :
    createQuery d name kw =
      "insert into " ++ name ++ " (" ++
        String.intercalate ", " (kw.args.map Arg.key) ++ ") values (" ++
        String.intercalate ", "
          ((List.range kw.args.length).map fun i => placeholderAt d (i + 1)) ++
        ");" ∧
    createValues kw = (kw.args.map fun a => (a.type, jsonToString a.value)) ∧
    createQuery .postgres "user" kwInsertJoe =
      "insert into user (name, email) values ($1, $2);" ∧
    createBinds kwInsertJoe = some [Bound.text "joe", Bound.text "joe@x.io"] := by
  refine ⟨createQuery_eq d name kw, rfl, by decide, by decide⟩

/-- C6: `to_value` rewrites JSON `true` to the number `1` and `false` to
`0`, so the `Arg` the `kwargs!` macro builds from a boolean carries the
integer value, and nothing `to_value` returns is still a boolean when it
reaches the binder. -/
theorem c6_bool_normalization (b : Bool) (k t : String) (v : Value) :
    to_value (.bool true) = .num 1 ∧
    to_value (.bool false) = .num 0 ∧
    (kwargOf k (.bool b) t).value = .num (if b then 1 else 0) ∧
    (to_value v).isBool = false := by
  refine ⟨rfl, rfl, ?_, ?_⟩
  · cases b <;> rfl
  · cases v with
    | null => rfl
    | bool b2 => cases b2 <;> rfl
    | num n => rfl
    | str s => rfl

/-- C7: every path swallows backend errors — on a failed execution `all`
and `filter` return `[]`, `get` returns `none`, `count` returns `0`, and
`migrate`, `create`, `set` and bulk `delete` return `false`; on success
`count` returns the fetched count, `all`/`filter` return the rows, `get`
their head, and the write paths return `true`. -/
theorem c7_error_swallowing (ρ : Type) (e : String) (rows : List ρ) :
    (∀ n : Int, 0 ≤ n → n < 2 ^ 64 → countResult (.ok n) = n.toNat) ∧
    allResult (ρ := ρ) (.error e) = [] ∧
    filterResult (ρ := ρ) (.error e) = [] ∧
    getResult (ρ := ρ) (.error e) = none ∧
    countResult (.error e) = 0 ∧
    migrateResult (.error e) = false ∧
    createResult (.error e) = false ∧
    setResult (.error e) = false ∧
    deleteResult (.error e) = false ∧
    allResult (.ok rows) = rows ∧
    filterResult (.ok rows) = rows ∧
    getResult (.ok rows) = rows.head? ∧
    migrateResult (.ok ()) = true ∧
    createResult (.ok ()) = true ∧
    setResult (.ok ()) = true ∧
    deleteResult (.ok ()) = true := by
  refine ⟨?_, rfl, rfl, rfl, rfl, rfl, rfl, rfl, rfl, rfl, rfl, rfl, rfl, rfl,
    rfl, rfl⟩
  intro n h1 h2
  have h3 : n % (2 ^ 64) = n := Int.emod_eq_of_lt h1 h2
  norm_num at h3
  simp [countResult, usizeOfI64, h3]

/-- Witness for C7: the successful count path at the concrete count 5. -/
theorem c7_error_swallowing_witness :
    countResult (.ok (5 : Int)) = (5 : Int).toNat :=
  (c7_error_swallowing Nat "connection refused" []).1 5 (by decide) (by decide)

/-- C8: a value tagged `"i32"` or `"f64"` whose quote-stripped text does
not parse makes the whole bind loop of `create`, `filter` and `set` panic
(modelled `none`) — a fatal outcome for the call, not a recoverable
false/empty result; conversely, when every numeric-tagged value parses,
the loop never panics. -/
theorem c8_binder_panic (kw : Kwargs) (idT idV : String) :
    ((∃ a ∈ kw.args, badPair (a.type, jsonToString a.value)) →
      createBinds kw = none ∧ filterBinds kw = none ∧
      setBinds idT idV kw = none) ∧
    ((∀ a ∈ kw.args, goodPair (a.type, jsonToString a.value)) →
      (createBinds kw).isSome = true ∧ (filterBinds kw).isSome = true ∧
      (goodPair (idT, idV) → (setBinds idT idV kw).isSome = true)) := by
  constructor
  · rintro ⟨a, ha, hb⟩
    have hmem : (a.type, jsonToString a.value) ∈ kwValues kw.args :=
      List.mem_map_of_mem _ ha
    have h1 : bindAll (kwValues kw.args) = none :=
      bindAll_none_of _ ⟨_, hmem, hb⟩
    refine ⟨h1, h1, ?_⟩
    exact bindAll_none_of _ ⟨_, List.mem_append_left _ hmem, hb⟩
  · intro h
    have hall : ∀ p ∈ kwValues kw.args, goodPair p := by
      intro p hp
      obtain ⟨a, ha, rfl⟩ := List.mem_map.mp hp
      exact h a ha
    have h1 := bindAll_isSome_of _ hall
    refine ⟨h1, h1, fun hid => ?_⟩
    apply bindAll_isSome_of
    intro p hp
    rcases List.mem_append.mp hp with hp1 | hp2
    · exact hall p hp1
    · rw [List.mem_singleton.mp hp2]
      exact hid

/-- Witness for C8: an unparsable i32-tagged value panics the bind loop;
an all-parsable kwargs binds successfully. -/
theorem c8_binder_panic_witness :
    createBinds kwBadBind = none ∧ (createBinds kwGoodBind).isSome = true :=
  ⟨((c8_binder_panic kwBadBind "i32" "7").1 (by decide)).1,
   ((c8_binder_panic kwGoodBind "i32" "7").2 (by decide)).1⟩

/-- C9: on an empty arg list `filter` emits the malformed
`SELECT * FROM <name> WHERE ;` (a dangling WHERE with an empty clause
list) and `set` emits `update <name> set <empty> where <pk>=<ph 1>;`
(an empty SET clause list), for every operator and dialect, instead of
rejecting the input or producing valid match-all SQL. -/
theorem c9_empty_kwargs (d : Dialect) (name pk : String) (op : Operator) :
    filterQuery d name pk ⟨op, []⟩ = "SELECT * FROM " ++ name ++ " WHERE ;" ∧
    setQuery d name pk ⟨op, []⟩ =
      "update " ++ name ++ " set " ++ "" ++ " where " ++ pk ++ "=" ++
        placeholderAt d 1 ++ ";" := by
  constructor
  · have h0 : filterQuery d name pk ⟨op, []⟩ =
        "SELECT * FROM " ++ name ++ " WHERE " ++ "" ++ ";" := rfl
    rw [h0, String.append_empty,
      String.append_assoc ("SELECT * FROM " ++ name) " WHERE " ";",
      show (" WHERE " ++ ";" : String) = " WHERE ;" by decide]
  · rfl

/-- C10: for every arg whose type tag is neither `"i32"` nor `"f64"`, the
bound value is the JSON serialization of the arg's value with every
double-quote character removed — interior escaped quotes included, so the
text «he said "hi"» is bound as «he said \hi\» (the quote characters of
its serialization are deleted, leaving the escaping backslashes). -/
theorem c10_quote_stripping (t : String) (v : Value)
    (h1 : t ≠ "i32") (h2 : t ≠ "f64") :
    bindOne t (jsonToString v) =
      some (.text (stripQuotes (jsonToString v))) ∧
    stripQuotes (jsonToString (Value.str "he said \"hi\"")) = "he said \\hi\\" := by
  refine ⟨?_, by decide⟩
  simp [bindOne, h1, h2]

/-- Witness for C10 at a string-tagged value with an interior quote. -/
theorem c10_quote_stripping_witness :
    bindOne "alloc::string::String" (jsonToString (Value.str "a\"b")) =
      some (.text (stripQuotes (jsonToString (Value.str "a\"b")))) ∧
    stripQuotes (jsonToString (Value.str "a\"b")) = "a\\b" :=
  ⟨(c10_quote_stripping "alloc::string::String" (Value.str "a\"b")
      (by decide) (by decide)).1,
   by decide⟩

end RusqlAlchemy
